import Mathlib

/-!
# Verification of the repo-framework Repository/Service core

A shallow embedding of `src/repositories/base.repo.ts` and
`src/services/base.service.ts` from `@nodesandbox/repo-framework`.

Modelling conventions:
* A mongoose document is a `Rec`: a numeric identity, a list of named string
  fields, and the soft-delete markers `deletedAt` / `deletedBy`.
* A mongoose collection is a `List Rec`; the mongoose primitives the
  repository calls (`find`, `findOne`, `findOneAndUpdate`, `updateMany`,
  `findOneAndDelete`, `deleteMany`, `countDocuments`, `exists`) are pure
  functions on that list.  Sorting only permutes results; the model keeps
  insertion order (no claim below concerns document order, only membership
  and counts).  Negative `skip`/`limit` values are clamped to `0` by the
  model via `Int.toNat`; no theorem relies on the behaviour of the storage
  engine at negative values (the engine is an external collaborator).
* A mongoose filter object is a `Query`: a boolean predicate on the ordinary
  fields together with the optional `deletedAt` key of the query object.
  The object spread `{ ...query, deletedAt: null }` of the source is
  `Query.withDeletedNull`, which overrides any caller-supplied `deletedAt`
  key, exactly like the spread does.
* JavaScript exceptions/promise rejections are `Except JsErr`; a thrown
  `ErrorResponse` is `JsErr.resp`, a generic `Error` is `JsErr.err`.
* JavaScript numbers reaching `Math.ceil` of a division are `JSNum`
  (finite / ±Infinity / NaN), computed by `jsCeilDiv`.
-/

/-- Document instant (milliseconds, as produced by `Date.now()`). -/
abbrev Millis := Int

/-- A stored document: identity, ordinary named fields, soft-delete markers.
`deletedAt = none` models `deletedAt: null` (a live record). -/
structure Rec where
  id : Nat
  fields : List (String × String)
  deletedAt : Option Millis
  deletedBy : Option String
deriving Repr, DecidableEq

/-- A partial document / plain update payload: the named fields present. -/
abbrev Doc := List (String × String)

/-- `doc[field]`: `none` models an absent key (JS `undefined`). -/
def getField (doc : Doc) (f : String) : Option String :=
  match doc with
  | [] => none
  | (k, v) :: rest => if k = f then some v else getField rest f

/-- `doc[field] = value` (JS property assignment / object spread override). -/
def setField (doc : Doc) (f v : String) : Doc :=
  match doc with
  | [] => [(f, v)]
  | (k, w) :: rest => if k = f then (f, v) :: rest else (k, w) :: setField rest f v

/-- JS truthiness test `!doc[field]` for our string-valued fields:
absent (`undefined`) or the empty string are falsy. -/
def fieldFalsy (doc : Doc) (f : String) : Bool :=
  match getField doc f with
  | none => true
  | some v => v = ""

/-- The explicit `deletedAt` key of a mongoose filter object. -/
inductive DelCond where
  | isNull
  | notNull
deriving Repr, DecidableEq

/-- A mongoose filter: a predicate on id/ordinary fields, plus the optional
`deletedAt` key of the filter object (kept separate because the repository
manipulates exactly that key via object spread). -/
structure Query where
  pred : Rec → Bool
  delCond : Option DelCond := none

/-- Whether a record matches a filter. -/
def Query.matches (q : Query) (r : Rec) : Bool :=
  q.pred r &&
    (match q.delCond with
     | none => true
     | some .isNull => r.deletedAt.isNone
     | some .notNull => r.deletedAt.isSome)

/-- `{ ...query, deletedAt: null }` — the spread used by the repository for
default (soft-delete-excluding) visibility; it overrides any caller key. -/
def Query.withDeletedNull (q : Query) : Query :=
  { q with delCond := some .isNull }

/-- `{ ...query, deletedAt: { $ne: null } }` — the spread used by the restore
family to target soft-deleted records. -/
def Query.withDeletedNotNull (q : Query) : Query :=
  { q with delCond := some .notNull }

/-- The filter `{ _id: id }`. -/
def idQuery (id : Nat) : Query :=
  { pred := fun r => r.id == id }

/-- The empty filter `{}`. -/
def emptyQuery : Query := { pred := fun _ => true }

/-- An update payload, covering the update shapes the source issues:
a plain `$set`-style field patch, `{ $set: { deletedAt: now } }`, and
`{ $unset: { deletedAt: 1 } }` optionally together with `deletedBy`. -/
inductive UpdateOp where
  | setFields (kvs : Doc)
  | setDeletedAt (t : Millis)
  | unsetDeleted (alsoDeletedBy : Bool)
deriving Repr

/-- Apply an update payload to a record. -/
def applyUpdate (u : UpdateOp) (r : Rec) : Rec :=
  match u with
  | .setFields kvs => { r with fields := kvs.foldl (fun fs (kv : String × String) => setField fs kv.1 kv.2) r.fields }
  | .setDeletedAt t => { r with deletedAt := some t }
  | .unsetDeleted alsoBy =>
      { r with deletedAt := none,
               deletedBy := if alsoBy then none else r.deletedBy }

/-- Options accepted by `model.find` (the service only uses `skip`/`limit`;
sorting only permutes the result list and is not modelled, see header). -/
structure FindOptions where
  skip : Option Int := none
  limit : Option Int := none
deriving Repr, DecidableEq

/-- `model.find(query, null, options)`: all matches, then `skip`/`limit`. -/
def mongooseFind (store : List Rec) (q : Query) (opts : FindOptions) : List Rec :=
  let matched := store.filter q.matches
  let afterSkip := match opts.skip with
    | none => matched
    | some s => matched.drop s.toNat
  match opts.limit with
  | none => afterSkip
  | some l => afterSkip.take l.toNat

/-- `model.findOne(query)`: the first match. -/
def mongooseFindOne (store : List Rec) (q : Query) : Option Rec :=
  (store.filter q.matches).head?

/-- `model.findOneAndUpdate(query, update, { new: true })`: update the first
match, returning the new store and the updated document. -/
def mongooseFindOneAndUpdate (store : List Rec) (q : Query) (u : UpdateOp) :
    List Rec × Option Rec :=
  match store with
  | [] => ([], none)
  | r :: rest =>
    if q.matches r then (applyUpdate u r :: rest, some (applyUpdate u r))
    else
      (r :: (mongooseFindOneAndUpdate rest q u).1, (mongooseFindOneAndUpdate rest q u).2)

/-- `model.updateMany(query, update)`: update every match; the returned
count is the mongoose `modifiedCount`, which only counts documents the update
actually changed. -/
def mongooseUpdateMany (store : List Rec) (q : Query) (u : UpdateOp) :
    List Rec × Nat :=
  let store' := store.map (fun r => if q.matches r then applyUpdate u r else r)
  let modified := (store.filter (fun r => q.matches r && decide (applyUpdate u r ≠ r))).length
  (store', modified)

/-- `model.findOneAndDelete(query)`: physically remove the first match. -/
def mongooseFindOneAndDelete (store : List Rec) (q : Query) :
    List Rec × Option Rec :=
  match store with
  | [] => ([], none)
  | r :: rest =>
    if q.matches r then (rest, some r)
    else
      (r :: (mongooseFindOneAndDelete rest q).1, (mongooseFindOneAndDelete rest q).2)

/-- `model.deleteMany(query)`: physically remove all matches, returning the
new store and `deletedCount`. -/
def mongooseDeleteMany (store : List Rec) (q : Query) : List Rec × Nat :=
  (store.filter (fun r => !q.matches r), (store.filter q.matches).length)

/-- `model.countDocuments(query).limit(..).skip(..)`. -/
def mongooseCount (store : List Rec) (q : Query) (opts : FindOptions) : Nat :=
  (mongooseFind store q opts).length

/-- `model.exists(query) !== null`. -/
def mongooseExists (store : List Rec) (q : Query) : Bool :=
  store.any q.matches

/-- `new this.model(input).save()`: hydrate a fresh document.  The base
schema (outside `src/`) defaults the soft-delete markers to `null`, so a
created record is live. -/
def freshId (store : List Rec) : Nat :=
  store.foldl (fun m r => max m r.id) 0 + 1

namespace BaseRepository

/-- `BaseRepository.create` (base.repo.ts:23). -/
def create (store : List Rec) (input : Doc) : List Rec × Rec :=
  let r : Rec := { id := freshId store, fields := input, deletedAt := none, deletedBy := none }
  (store ++ [r], r)

/-- `BaseRepository.findAll` (base.repo.ts:33): conjoins `deletedAt: null`
unless `includeDeleted`. -/
def findAll (store : List Rec) (q : Query) (opts : FindOptions := {})
    (includeDeleted : Bool := false) : List Rec :=
  let effectiveQuery := if includeDeleted then q else q.withDeletedNull
  mongooseFind store effectiveQuery opts

/-- `BaseRepository.findById` (base.repo.ts:44). -/
def findById (store : List Rec) (id : Nat) (includeDeleted : Bool := false) :
    Option Rec :=
  let q := if includeDeleted then idQuery id else (idQuery id).withDeletedNull
  mongooseFindOne store q

/-- `BaseRepository.findOne` (base.repo.ts:55). -/
def findOne (store : List Rec) (q : Query) (_opts : FindOptions := {})
    (includeDeleted : Bool := false) : Option Rec :=
  let effectiveQuery := if includeDeleted then q else q.withDeletedNull
  mongooseFindOne store effectiveQuery

/-- `BaseRepository.update` (base.repo.ts:66): `findOneAndUpdate` with
`deletedAt: null` conjoined unless `includeDeleted`. -/
def update (store : List Rec) (q : Query) (u : UpdateOp)
    (includeDeleted : Bool := false) : List Rec × Option Rec :=
  let effectiveQuery := if includeDeleted then q else q.withDeletedNull
  mongooseFindOneAndUpdate store effectiveQuery u

/-- `BaseRepository.updateById` (base.repo.ts:80): `findByIdAndUpdate` —
note: no `deletedAt` condition at all. -/
def updateById (store : List Rec) (id : Nat) (u : UpdateOp) :
    List Rec × Option Rec :=
  mongooseFindOneAndUpdate store (idQuery id) u

/-- `BaseRepository.updateMany` (base.repo.ts:91): always conjoins
`deletedAt: null`. -/
def updateMany (store : List Rec) (q : Query) (u : UpdateOp) :
    List Rec × Nat :=
  mongooseUpdateMany store q.withDeletedNull u

/-- `BaseRepository.delete` (base.repo.ts:102): the soft path calls
`this.update(query, { $set: { deletedAt: now } }, options, true)` — with
`includeDeleted = true`, so it can re-delete an already soft-deleted record;
the hard path is a raw `findOneAndDelete`. -/
def delete (store : List Rec) (now : Millis) (q : Query)
    (softDelete : Bool := true) : List Rec × Option Rec :=
  if softDelete then
    update store q (.setDeletedAt now) true
  else
    mongooseFindOneAndDelete store q

/-- `BaseRepository.deleteById` (base.repo.ts:119): soft path via
`updateById` (no `deletedAt` condition), hard path via `findByIdAndDelete`. -/
def deleteById (store : List Rec) (now : Millis) (id : Nat)
    (softDelete : Bool := true) : List Rec × Option Rec :=
  if softDelete then
    updateById store id (.setDeletedAt now)
  else
    mongooseFindOneAndDelete store (idQuery id)

/-- `BaseRepository.deleteMany` (base.repo.ts:133): both paths use the raw
caller filter (no `deletedAt` condition). -/
def deleteMany (store : List Rec) (now : Millis) (q : Query)
    (softDelete : Bool := true) : List Rec × Nat :=
  if softDelete then
    mongooseUpdateMany store q (.setDeletedAt now)
  else
    mongooseDeleteMany store q

/-- `BaseRepository.restore` (base.repo.ts:147): find a soft-deleted match
(`{ ...query, deletedAt: { $ne: null } }`, includeDeleted), then
`$unset` both `deletedAt` and `deletedBy` on it by id. -/
def restore (store : List Rec) (q : Query) : List Rec × Option Rec :=
  match findOne store q.withDeletedNotNull {} true with
  | none => (store, none)
  | some deletedDoc => update store (idQuery deletedDoc.id) (.unsetDeleted true) true

/-- `BaseRepository.restoreById` (base.repo.ts:166): `findById` with
`includeDeleted = true` — which matches a live record just as well — then
`$unset` both markers. -/
def restoreById (store : List Rec) (id : Nat) : List Rec × Option Rec :=
  match findById store id true with
  | none => (store, none)
  | some _ => update store (idQuery id) (.unsetDeleted true) true

/-- `BaseRepository.restoreMany` (base.repo.ts:183): `updateMany` over
`{ ...filter, deletedAt: { $ne: null } }` with `{ $unset: { deletedAt: 1 } }`
— `deletedBy` is NOT unset here. -/
def restoreMany (store : List Rec) (q : Query) : List Rec × Nat :=
  mongooseUpdateMany store q.withDeletedNotNull (.unsetDeleted false)

/-- `BaseRepository.countDocuments` (base.repo.ts:203). -/
def countDocuments (store : List Rec) (q : Query) (opts : FindOptions := {})
    (includeDeleted : Bool := false) : Nat :=
  let effectiveQuery := if includeDeleted then q else q.withDeletedNull
  mongooseCount store effectiveQuery opts

/-- `BaseRepository.exists` (base.repo.ts:225). -/
def existsQ (store : List Rec) (q : Query) (includeDeleted : Bool := false) :
    Bool :=
  let query := if includeDeleted then q else q.withDeletedNull
  mongooseExists store query

end BaseRepository

/-! ## Error / envelope model (handlers + service boundary) -/

/-- The structured error carried by the error branch of the envelope
(`ErrorResponse` of the handlers package). -/
structure ErrResp where
  code : String
  message : String
  suggestions : List String := []
deriving Repr, DecidableEq

/-- A JavaScript exception / promise rejection: either a deliberately
thrown `ErrorResponse`, or any other `Error` (carrying its message). -/
inductive JsErr where
  | resp (e : ErrResp)
  | err (message : String)
deriving Repr, DecidableEq

/-- The `catch` block shared by the service operations:
`error instanceof ErrorResponse ? error : new ErrorResponse({ code, message })`. -/
def catchToError (fallbackCode : String) : JsErr → ErrResp
  | .resp e => e
  | .err m => { code := fallbackCode, message := m }

/-- JavaScript numbers as they reach `Math.ceil` of a division. -/
inductive JSNum where
  | fin (z : Int)
  | posInf
  | negInf
  | nan
deriving Repr, DecidableEq

/-- `Math.ceil(a / b)` on integers, including division by zero
(`Infinity` / `-Infinity` / `NaN` exactly as in JS). -/
def jsCeilDiv (a b : Int) : JSNum :=
  if 0 < b then .fin ((a + b - 1).fdiv b)
  else if b < 0 then .fin (-(a.fdiv (-b)))
  else if 0 < a then .posInf
  else if a < 0 then .negInf
  else .nan

/-- Pagination block of the `findAll` response metadata. -/
structure PagMeta where
  page : Int
  limit : Int
  totalPages : JSNum
  remainingItems : Int
  pageItemsCount : Nat
deriving Repr, DecidableEq

/-- `findAll` response metadata (`meta`). -/
structure FindMeta where
  total : Nat
  results : Nat
  pag : Option PagMeta
deriving Repr, DecidableEq

/-- The Response Envelope: `{ success: true, data, meta? }` or
`{ success: false, error }`. -/
inductive SvcResponse (α : Type) where
  | ok (docs : α) (meta : Option FindMeta := none)
  | fail (error : ErrResp)
deriving Repr, DecidableEq

/-- Whether an envelope is the success branch. -/
def SvcResponse.isSuccess {α : Type} : SvcResponse α → Bool
  | .ok _ _ => true
  | .fail _ => false

/-! ## Service configuration (the resolved, post-`mergeConfig` values)

Only the sub-configs consulted by the operations embedded below are
modelled; the in-source defaults (base.service.ts:42-150) are the structure
defaults.  The in-source default slug generator `slugify` is defined outside
`src/`; no claim depends on it, so the generator here defaults to the
identity and every theorem that touches slugs instantiates the generator
explicitly. -/

structure PaginationCfg where
  defaultLimit : Int := 10
  maxLimit : Int := 100
  defaultPage : Int := 1

structure SlugCfg where
  enabled : Bool := false
  sourceField : String := "name"
  targetField : String := "slug"
  generator : String → String := fun s => s
  uniqueResolver : String → Nat → String := fun baseSlug count => baseSlug ++ "-" ++ Nat.repr count

structure SearchCfg where
  enabled : Bool := false
  fields : List String := []
  caseSensitive : Bool := false

structure CacheCfg where
  enabled : Bool := false
  ttl : Int := 300

/-- Lifecycle hooks.  The source hooks mutate their argument in place; the
model returns the possibly-modified document. -/
structure HooksCfg where
  beforeCreate : Option (Doc → Except JsErr Doc) := none
  afterCreate : Option (Rec → Except JsErr Unit) := none
  beforeUpdate : Option (Rec → Doc → Except JsErr Doc) := none
  afterUpdate : Option (Rec → Except JsErr Unit) := none

/-- Custom validation: per-field validators plus optional pre/post
whole-document validators (all may throw). -/
structure ValidationCfg where
  customValidators : List (String × (String → Doc → Except JsErr Bool)) := []
  preValidate : Option (Doc → Except JsErr Unit) := none
  postValidate : Option (Doc → Except JsErr Unit) := none

/-- The resolved service context: configuration, the unique-field set
detected at construction, and a storage-fault injection point (`fault`)
standing for the behaviour of the underlying persistence engine — when set,
every persistence call rejects with that error. -/
structure SvcCtx where
  uniqueFields : List String := []
  slug : SlugCfg := {}
  pagination : PaginationCfg := {}
  search : SearchCfg := {}
  cache : CacheCfg := {}
  allowedFields : List String := []
  hooks : HooksCfg := {}
  validation : ValidationCfg := {}
  softDelete : Bool := true
  fault : Option JsErr := none

/-- A persistence call: rejects when the storage engine is faulty,
otherwise returns the pure result over the store. -/
def repoCall {α : Type} (ctx : SvcCtx) (x : α) : Except JsErr α :=
  match ctx.fault with
  | some e => .error e
  | none => .ok x

/-! ## Service helpers (base.service.ts) -/

/-- The filter `{ [field]: value, ...(excludeId && { _id: { $ne: excludeId } }) }`
used by both `validateUniqueFields` and `generateUniqueSlug`. -/
def fieldEqQuery (f v : String) (excludeId : Option Nat) : Query :=
  { pred := fun r =>
      getField r.fields f == some v &&
        (match excludeId with
         | none => true
         | some i => !(r.id == i)) }

/-- The `UNIQUE_FIELD_ERROR` raised by `validateUniqueFields`
(base.service.ts:181). -/
def uniqueFieldError (f v : String) : ErrResp :=
  { code := "UNIQUE_FIELD_ERROR",
    message := "The " ++ f ++ " must be unique.",
    suggestions := ["Value \x27" ++ v ++ "\x27 is already taken for " ++ f ++ "."] }

/-- `validateUniqueFields` (base.service.ts:166): for each unique field,
skip when `!doc[field]` (absent or falsy); otherwise query existence via
`this.exists` (default visibility, so live records only), excluding
`excludeId` when given, and throw `UNIQUE_FIELD_ERROR` on a hit.  The
source runs the checks under `Promise.all`; the model surfaces the first
failing field in field-set order. -/
def validateUniqueFieldsGo (ctx : SvcCtx) (store : List Rec) (doc : Doc)
    (excludeId : Option Nat) : List String → Except JsErr Unit
  | [] => .ok ()
  | f :: fs =>
    if fieldFalsy doc f then validateUniqueFieldsGo ctx store doc excludeId fs
    else
      match getField doc f with
      | none => validateUniqueFieldsGo ctx store doc excludeId fs
      | some v => do
        let ex ← repoCall ctx (BaseRepository.existsQ store (fieldEqQuery f v excludeId))
        if ex then .error (.resp (uniqueFieldError f v))
        else validateUniqueFieldsGo ctx store doc excludeId fs

def validateUniqueFields (ctx : SvcCtx) (store : List Rec) (doc : Doc)
    (excludeId : Option Nat := none) : Except JsErr Unit :=
  validateUniqueFieldsGo ctx store doc excludeId ctx.uniqueFields

/-- `runCustomValidators` (base.service.ts:254): for each registered
field validator, run it when `doc[field] !== undefined`; a `false` result
throws `VALIDATION_ERROR`. -/
def runCustomValidatorsGo (doc : Doc) :
    List (String × (String → Doc → Except JsErr Bool)) → Except JsErr Unit
  | [] => .ok ()
  | (f, validator) :: rest =>
    match getField doc f with
    | none => runCustomValidatorsGo doc rest
    | some v => do
      let isValid ← validator v doc
      if isValid then runCustomValidatorsGo doc rest
      else .error (.resp { code := "VALIDATION_ERROR",
                           message := "Validation failed for field " ++ f ++ ".",
                           suggestions := ["Invalid value for " ++ f ++ "."] })

/-- `validateDocument` (base.service.ts:358): `preValidate`, then the
per-field validators, then `postValidate`. -/
def validateDocument (ctx : SvcCtx) (doc : Doc) : Except JsErr Unit := do
  (match ctx.validation.preValidate with
   | none => .ok ()
   | some pre => pre doc)
  runCustomValidatorsGo doc ctx.validation.customValidators
  match ctx.validation.postValidate with
  | none => .ok ()
  | some post => post doc

/-- The collision loop of `generateUniqueSlug` (base.service.ts:215-229).
The source loop is unbounded (`while (true)`); `fuel` bounds the number of
iterations the model is willing to unfold, and `none` means the loop did
not finish within that bound (possible divergence). -/
def slugLoop (ctx : SvcCtx) (store : List Rec) (excludeId : Option Nat)
    (sourceValue : String) : Nat → String → Nat → Option (Except JsErr String)
  | 0, _, _ => none
  | fuel + 1, slug, count =>
    match repoCall ctx
        (BaseRepository.existsQ store (fieldEqQuery ctx.slug.targetField slug excludeId)) with
    | .error e => some (.error e)
    | .ok true =>
        let c := count + 1
        slugLoop ctx store excludeId sourceValue fuel
          (ctx.slug.uniqueResolver (ctx.slug.generator sourceValue) c) c
    | .ok false => some (.ok slug)

/-- The message of the generic `Error` thrown by `generateUniqueSlug` when
the source field key is absent (base.service.ts:206). -/
def slugSourceMessage (sourceField : String) : String :=
  "Source field \x27" ++ sourceField ++ "\x27 not found in document."

/-- `generateUniqueSlug` (base.service.ts:195): no-op when slug config is
disabled; THROWS a generic `Error` when the source field key is absent from
the document (`!(sourceField in doc)`); skips when the source value is
falsy; otherwise runs the collision loop and assigns the accepted slug to
the target field. -/
def generateUniqueSlug (ctx : SvcCtx) (store : List Rec) (doc : Doc)
    (excludeId : Option Nat) (fuel : Nat) : Option (Except JsErr Doc) :=
  if ¬ ctx.slug.enabled then some (.ok doc)
  else
    match getField doc ctx.slug.sourceField with
    | none =>
        some (.error (.err (slugSourceMessage ctx.slug.sourceField)))
    | some sourceValue =>
      if sourceValue = "" then some (.ok doc)
      else
        match slugLoop ctx store excludeId sourceValue fuel
            (ctx.slug.generator sourceValue) 0 with
        | none => none
        | some (.error e) => some (.error e)
        | some (.ok slug) => some (.ok (setField doc ctx.slug.targetField slug))

/-- A `NOT_FOUND_ERROR` envelope error (thrown as `ErrorResponse` and passed
through the catch unchanged). -/
def notFoundError (msg : String) : ErrResp :=
  { code := "NOT_FOUND_ERROR", message := msg }

/-! ## Cache layer (base.service.ts:332-356)

The cache is a keyed map of `{ data, timestamp }` entries.  `Map.get` /
`Map.set` are modelled on an association list; `Map.set` replaces an
existing key. -/

structure CacheEntryM (α : Type) where
  data : α
  timestamp : Millis
deriving Repr, DecidableEq

abbrev CacheState (α : Type) := List (String × CacheEntryM α)

def cacheLookup {α : Type} (c : CacheState α) (k : String) : Option (CacheEntryM α) :=
  match c with
  | [] => none
  | (k', e) :: rest => if k' = k then some e else cacheLookup rest k

def cacheSet {α : Type} (c : CacheState α) (k : String) (e : CacheEntryM α) : CacheState α :=
  match c with
  | [] => [(k, e)]
  | (k', e') :: rest => if k' = k then (k, e) :: rest else (k', e') :: cacheSet rest k e

/-- `getCachedData` (base.service.ts:336): bypass when caching is disabled;
return the cached value while `now - timestamp < ttl * 1000`; otherwise run
the getter and store `{ data, timestamp: now }`.  The third component
reports whether the getter (the persistence computation) actually ran. -/
def getCachedData {α : Type} (cfg : CacheCfg) (cache : CacheState α) (now : Millis)
    (key : String) (getter : Except JsErr α) :
    Except JsErr α × CacheState α × Bool :=
  if ¬ cfg.enabled then (getter, cache, true)
  else
    match cacheLookup cache key with
    | some cached =>
      if now - cached.timestamp < cfg.ttl * 1000 then (.ok cached.data, cache, false)
      else
        match getter with
        | .error e => (.error e, cache, true)
        | .ok d => (.ok d, cacheSet cache key ⟨d, now⟩, true)
    | none =>
      match getter with
      | .error e => (.error e, cache, true)
      | .ok d => (.ok d, cacheSet cache key ⟨d, now⟩, true)

/-! ## Service operations -/

namespace Service

/-- `Service.create` (base.service.ts:377): beforeCreate hook →
`validateUniqueFields` → `validateDocument` → `generateUniqueSlug` →
persist → afterCreate hook → envelope; any throw is converted by the catch
(`ErrorResponse` passed through, anything else wrapped as
`DATABASE_ERROR`).  Result expansion (populate) is an external mongoose
concern and is the identity here (`defaultPopulate` is off by default).
`none` means the slug collision loop exceeded `fuel` (divergence). -/
def create (ctx : SvcCtx) (store : List Rec) (input : Doc) (fuel : Nat) :
    Option (List Rec × SvcResponse Rec) :=
  match ((match ctx.hooks.beforeCreate with
          | none => .ok input
          | some h => h input) : Except JsErr Doc) with
  | .error e => some (store, .fail (catchToError "DATABASE_ERROR" e))
  | .ok input1 =>
  match validateUniqueFields ctx store input1 none with
  | .error e => some (store, .fail (catchToError "DATABASE_ERROR" e))
  | .ok _ =>
  match validateDocument ctx input1 with
  | .error e => some (store, .fail (catchToError "DATABASE_ERROR" e))
  | .ok _ =>
  match generateUniqueSlug ctx store input1 none fuel with
  | none => none
  | some (.error e) => some (store, .fail (catchToError "DATABASE_ERROR" e))
  | some (.ok input2) =>
  match repoCall ctx (BaseRepository.create store input2) with
  | .error e => some (store, .fail (catchToError "DATABASE_ERROR" e))
  | .ok (store', document) =>
  match ((match ctx.hooks.afterCreate with
          | none => .ok ()
          | some h => h document) : Except JsErr Unit) with
  | .error e => some (store', .fail (catchToError "DATABASE_ERROR" e))
  | .ok _ => some (store', .ok document)

/-- `Service.update` (base.service.ts:553): load existing (404) →
beforeUpdate hook → unique validation excluding self → document validation
→ conditional slug generation → persist via `repository.update` (404 when
it returns null) → afterUpdate hook → envelope.

The conditional slug stage mirrors base.service.ts:580-589 exactly: when
slug config is enabled and `updateInput[sourceField] !==
documentToUpdate[sourceField]`, `generateUniqueSlug` runs on the spread
copy `{ ...updateInput, _id: documentToUpdate._id }` — and that copy is
then DISCARDED; the persisted update uses the original `updateInput`, so
the generated slug is never written. -/
def update (ctx : SvcCtx) (store : List Rec) (q : Query) (updateInput : Doc)
    (fuel : Nat) (includeDeleted : Bool := false) :
    Option (List Rec × SvcResponse Rec) :=
  match repoCall ctx (BaseRepository.findOne store q {} includeDeleted) with
  | .error e => some (store, .fail (catchToError "DATABASE_ERROR" e))
  | .ok none => some (store, .fail (notFoundError "Document to update not found."))
  | .ok (some documentToUpdate) =>
  match ((match ctx.hooks.beforeUpdate with
          | none => .ok updateInput
          | some h => h documentToUpdate updateInput) : Except JsErr Doc) with
  | .error e => some (store, .fail (catchToError "DATABASE_ERROR" e))
  | .ok updateInput1 =>
  match validateUniqueFields ctx store updateInput1 (some documentToUpdate.id) with
  | .error e => some (store, .fail (catchToError "DATABASE_ERROR" e))
  | .ok _ =>
  match validateDocument ctx updateInput1 with
  | .error e => some (store, .fail (catchToError "DATABASE_ERROR" e))
  | .ok _ =>
  match (if ctx.slug.enabled &&
            !(getField updateInput1 ctx.slug.sourceField ==
              getField documentToUpdate.fields ctx.slug.sourceField) then
           match generateUniqueSlug ctx store
               (setField updateInput1 "_id" (Nat.repr documentToUpdate.id))
               (some documentToUpdate.id) fuel with
           | none => none
           | some (.error e) => some (Except.error e)
           | some (.ok _discardedCopy) => some (Except.ok ())
         else some (Except.ok ())) with
  | none => none
  | some (.error e) => some (store, .fail (catchToError "DATABASE_ERROR" e))
  | some (.ok _) =>
  match repoCall ctx (BaseRepository.update store q (.setFields updateInput1) includeDeleted) with
  | .error e => some (store, .fail (catchToError "DATABASE_ERROR" e))
  | .ok (store', none) => some (store', .fail (notFoundError "Updated document not found."))
  | .ok (store', some updatedDocument) =>
  match ((match ctx.hooks.afterUpdate with
          | none => .ok ()
          | some h => h updatedDocument) : Except JsErr Unit) with
  | .error e => some (store', .fail (catchToError "DATABASE_ERROR" e))
  | .ok _ => some (store', .ok updatedDocument)

/-- `Service.updateById` (base.service.ts:987): load by id (default
visibility, 404) → beforeUpdate hook → unique validation excluding self →
document validation → persist via `repository.updateById` → afterUpdate
hook → envelope.  Note: unlike `update`, there is NO slug stage here. -/
def updateById (ctx : SvcCtx) (store : List Rec) (id : Nat) (updateInput : Doc) :
    List Rec × SvcResponse Rec :=
  match repoCall ctx (BaseRepository.findById store id) with
  | .error e => (store, .fail (catchToError "DATABASE_ERROR" e))
  | .ok none => (store, .fail (notFoundError "Document to update not found."))
  | .ok (some documentToUpdate) =>
  match ((match ctx.hooks.beforeUpdate with
          | none => .ok updateInput
          | some h => h documentToUpdate updateInput) : Except JsErr Doc) with
  | .error e => (store, .fail (catchToError "DATABASE_ERROR" e))
  | .ok updateInput1 =>
  match validateUniqueFields ctx store updateInput1 (some documentToUpdate.id) with
  | .error e => (store, .fail (catchToError "DATABASE_ERROR" e))
  | .ok _ =>
  match validateDocument ctx updateInput1 with
  | .error e => (store, .fail (catchToError "DATABASE_ERROR" e))
  | .ok _ =>
  match repoCall ctx (BaseRepository.updateById store id (.setFields updateInput1)) with
  | .error e => (store, .fail (catchToError "DATABASE_ERROR" e))
  | .ok (store', none) => (store', .fail (notFoundError "Updated document not found."))
  | .ok (store', some updatedDocument) =>
  match ((match ctx.hooks.afterUpdate with
          | none => .ok ()
          | some h => h updatedDocument) : Except JsErr Unit) with
  | .error e => (store', .fail (catchToError "DATABASE_ERROR" e))
  | .ok _ => (store', .ok updatedDocument)

end Service

/-! ## `findAll` read pipeline (base.service.ts:416-510) -/

/-- The caller-facing argument object of `Service.findAll`.  `sortKeys` is
carried for cache-key fidelity only: sorting merely permutes the result
list and the model keeps insertion order (see file header). -/
structure FindAllArgs where
  query : Doc := []
  sortKeys : List (String × Int) := []
  page : Option Int := none
  limit : Option Int := none
  searchTerm : Option String := none
  paginate : Bool := true
  includeDeleted : Bool := false
deriving Repr, DecidableEq

/-- `filterAllowedFields` (base.service.ts:315): when `allowedFields` is
non-empty, keep only the query keys it lists. -/
def filterAllowedFields (ctx : SvcCtx) (query : Doc) : Doc :=
  if ctx.allowedFields.isEmpty then query
  else query.filter (fun kv => ctx.allowedFields.contains kv.1)

/-- `buildSearchQuery` (base.service.ts:294): `{}` when the term is falsy,
search is disabled, or no fields are configured; otherwise an `$or` of
per-field regex conditions on the escaped term — i.e. a literal substring
match, case-insensitive unless configured otherwise. -/
def buildSearchQuery (ctx : SvcCtx) (searchTerm : Option String) :
    Option (List String × String × Bool) :=
  match searchTerm with
  | none => none
  | some t =>
    if t = "" then none
    else if ¬ ctx.search.enabled then none
    else if ctx.search.fields.isEmpty then none
    else some (ctx.search.fields, t, ctx.search.caseSensitive)

/-- Evaluate the `$or`-of-regex search condition on one record. -/
def searchMatches (s : Option (List String × String × Bool)) (r : Rec) : Bool :=
  match s with
  | none => true
  | some (fields, term, caseSensitive) =>
    fields.any fun f =>
      match getField r.fields f with
      | none => false
      | some v =>
        if caseSensitive then decide (term.data <:+: v.data)
        else decide (term.toLower.data <:+: v.toLower.data)

/-- The combined filter `{ ...filterAllowedFields(query), ...buildSearchQuery(searchTerm) }`. -/
def finalQueryOf (ctx : SvcCtx) (args : FindAllArgs) : Query :=
  let eqs := filterAllowedFields ctx args.query
  let srch := buildSearchQuery ctx args.searchTerm
  { pred := fun r =>
      eqs.all (fun kv => getField r.fields kv.1 == some kv.2) && searchMatches srch r }

/-- `finalPage = Math.max(1, page ?? defaultPage)` (base.service.ts:445). -/
def effectivePage (ctx : SvcCtx) (args : FindAllArgs) : Int :=
  max 1 (args.page.getD ctx.pagination.defaultPage)

/-- `finalLimit = Math.min(maxLimit, limit ?? defaultLimit)`
(base.service.ts:450) — an upper clamp only, no lower bound. -/
def effectiveLimit (ctx : SvcCtx) (args : FindAllArgs) : Int :=
  min ctx.pagination.maxLimit (args.limit.getD ctx.pagination.defaultLimit)

/-- The query options built at base.service.ts:455:
`{ sort, ...(paginate && { skip: (finalPage-1)*finalLimit, limit: finalLimit }) }`. -/
def findAllOptions (ctx : SvcCtx) (args : FindAllArgs) : FindOptions :=
  if args.paginate then
    { skip := some ((effectivePage ctx args - 1) * effectiveLimit ctx args),
      limit := some (effectiveLimit ctx args) }
  else {}

/-- The `findAll` getter passed to `getCachedData` (base.service.ts:438-500):
fetch the page of documents, the unfiltered `total`, the filtered
`results`, and assemble the envelope with the pagination metadata
`totalPages = Math.ceil(results / finalLimit)`,
`remainingItems = max(0, results - finalPage * finalLimit)`,
`pageItemsCount = documents.length`. -/
def findAllGetter (ctx : SvcCtx) (store : List Rec) (args : FindAllArgs) :
    Except JsErr (SvcResponse (List Rec)) := do
  let finalQuery := finalQueryOf ctx args
  let documents ← repoCall ctx
    (BaseRepository.findAll store finalQuery (findAllOptions ctx args) args.includeDeleted)
  let total ← repoCall ctx
    (BaseRepository.countDocuments store emptyQuery {} args.includeDeleted)
  let results ← repoCall ctx
    (BaseRepository.countDocuments store finalQuery {} args.includeDeleted)
  let finalPage := effectivePage ctx args
  let finalLimit := effectiveLimit ctx args
  let totalPages := jsCeilDiv results finalLimit
  let remaining : Int := (results : Int) - finalPage * finalLimit
  let remainingItems : Int := if 0 < remaining then remaining else 0
  .ok (.ok documents (some
    { total := total, results := results,
      pag :=
        if args.paginate then
          some { page := finalPage, limit := finalLimit, totalPages := totalPages,
                 remainingItems := remainingItems, pageItemsCount := documents.length }
        else none }))

/-- `getCacheKey(method, params)` = `method + ":" + JSON.stringify(params)`
(base.service.ts:332); serialization is modelled by `reprStr` (only its
congruence — equal arguments give equal keys — is ever used). -/
def findAllCacheKey (args : FindAllArgs) : String :=
  "findAll:" ++ reprStr args

/-- `Service.findAll` (base.service.ts:416).  The source wraps the body in
`try`/`catch` but RETURNS the `getCachedData` promise without awaiting it
(base.service.ts:438); a rejection inside the getter therefore bypasses the
catch and propagates to the caller — so the `.error` case below is returned
unconverted, and the catch only guards the synchronous prefix (which cannot
throw in this model).  The third component reports whether the persistence
computation ran (false on a fresh cache hit). -/
def serviceFindAll (ctx : SvcCtx) (store : List Rec) (now : Millis)
    (cache : CacheState (SvcResponse (List Rec))) (args : FindAllArgs) :
    Except JsErr (SvcResponse (List Rec)) × CacheState (SvcResponse (List Rec)) × Bool :=
  getCachedData ctx.cache cache now (findAllCacheKey args) (findAllGetter ctx store args)

/-! ## Decidability of result comparison and concrete instances used below -/

instance {ε α : Type} [DecidableEq ε] [DecidableEq α] : DecidableEq (Except ε α) :=
  fun a b =>
    match a, b with
    | .error e, .error e' =>
      if h : e = e' then .isTrue (by rw [h]) else .isFalse (by intro hc; cases hc; exact h rfl)
    | .error _, .ok _ => .isFalse (by intro hc; cases hc)
    | .ok _, .error _ => .isFalse (by intro hc; cases hc)
    | .ok x, .ok y =>
      if h : x = y then .isTrue (by rw [h]) else .isFalse (by intro hc; cases hc; exact h rfl)

/-- A slug-enabled service context over a given generator, everything else
at the resolved defaults (no hooks, no validators, no unique fields). -/
def slugCtx (gen : String → String) : SvcCtx :=
  { slug := { enabled := true, generator := gen } }

/-- The record produced by the n-th slugged create of `[("name", src)]`. -/
def slugRec (i : Nat) (src slugv : String) : Rec :=
  { id := i, fields := [("name", src), ("slug", slugv)], deletedAt := none, deletedBy := none }

/-- A slug-enabled context with the identity generator (used by the closed
counterexamples; the claim quantifies over the configured generator). -/
def ctxSlugId : SvcCtx := slugCtx (fun s => s)

/-- A context whose storage engine rejects every persistence call. -/
def ctxBoom : SvcCtx := { fault := some (.err "boom") }

/-- A context with a single unique field `email`. -/
def ctxUniq : SvcCtx := { uniqueFields := ["email"] }

/-- A cache-enabled context (ttl at the resolved default of 300 s). -/
def ctxCache : SvcCtx := { cache := { enabled := true, ttl := 300 } }

/-- A live record with no fields, for pagination scenarios. -/
def plainRec (i : Nat) : Rec :=
  { id := i, fields := [], deletedAt := none, deletedBy := none }

/-- A soft-deleted record (`deletedAt` set, `deletedBy` recorded). -/
def deletedRec : Rec :=
  { id := 1, fields := [], deletedAt := some 5, deletedBy := some "u" }

/-- A fully-default service context (cache disabled, no fault). -/
def ctxDefault : SvcCtx := {}

/-- Three live records, for pagination scenarios. -/
def store3 : List Rec := [plainRec 1, plainRec 2, plainRec 3]

/-- `findAll({ limit: 2, page: 2 })`. -/
def argsPag : FindAllArgs := { limit := some 2, page := some 2 }

/-- `findAll({ limit: -5, page: 2 })`. -/
def argsNeg : FindAllArgs := { limit := some (-5), page := some 2 }

/-! ## Shared helper lemmas -/

theorem append_ne_of_suffix_nonempty (b s : String) (hs : s ≠ "") : b ≠ b ++ s := by
  intro h
  have h2 := congrArg String.length h
  rw [String.length_append] at h2
  have : s.length = 0 := by omega
  exact hs (String.ext (List.length_eq_zero.mp this))

theorem append_right_inj (a b c : String) (h : a ++ b = a ++ c) : b = c := by
  have hd := congrArg String.data h
  simp [String.data_append] at hd
  exact String.ext hd

theorem resolver_one (b : String) : b ++ "-" ++ Nat.repr 1 = b ++ "-1" := by
  rw [String.append_assoc]
  have : ("-" ++ Nat.repr 1 : String) = "-1" := by decide
  rw [this]

theorem resolver_two (b : String) : b ++ "-" ++ Nat.repr 2 = b ++ "-2" := by
  rw [String.append_assoc]
  have : ("-" ++ Nat.repr 2 : String) = "-2" := by decide
  rw [this]

theorem matches_withDeletedNull (q : Query) (r : Rec) :
    (q.withDeletedNull).matches r = (q.pred r && r.deletedAt.isNone) := rfl

theorem matches_withDeletedNotNull (q : Query) (r : Rec) :
    (q.withDeletedNotNull).matches r = (q.pred r && r.deletedAt.isSome) := rfl

theorem mem_filter_of_mem_mongooseFind (store : List Rec) (q : Query) (opts : FindOptions)
    (r : Rec) (h : r ∈ mongooseFind store q opts) : r ∈ store.filter q.matches := by
  rcases opts with ⟨s, l⟩
  cases s <;> cases l <;> simp only [mongooseFind] at h <;>
    first
      | exact h
      | exact List.mem_of_mem_take h
      | exact List.mem_of_mem_drop h
      | exact List.mem_of_mem_drop (List.mem_of_mem_take h)

theorem head?_mem_list (l : List Rec) (a : Rec) (h : l.head? = some a) : a ∈ l := by
  cases l with
  | nil => simp at h
  | cons x xs => simp at h; simp [h]

theorem isNone_false_of_ne_none (o : Option Millis) (h : o ≠ none) : o.isNone = false := by
  cases o with
  | none => exact absurd rfl h
  | some t => rfl

theorem mongooseFindOneAndUpdate_snd_some (store : List Rec) (q : Query) (u : UpdateOp)
    (r' : Rec) (h : (mongooseFindOneAndUpdate store q u).2 = some r') :
    ∃ x ∈ store, q.matches x = true ∧ r' = applyUpdate u x := by
  induction store with
  | nil => simp [mongooseFindOneAndUpdate] at h
  | cons r rest ih =>
    by_cases hm : q.matches r
    · simp [mongooseFindOneAndUpdate, hm] at h
      exact ⟨r, by simp, hm, h.symm⟩
    · simp [mongooseFindOneAndUpdate, hm] at h
      obtain ⟨x, hx, hqx, hr⟩ := ih h
      exact ⟨x, by simp [hx], hqx, hr⟩

theorem mongooseFindOneAndUpdate_preserves (store : List Rec) (q : Query) (u : UpdateOp)
    (x : Rec) (hx : x ∈ store) (hnm : q.matches x = false) :
    x ∈ (mongooseFindOneAndUpdate store q u).1 := by
  induction store with
  | nil => simp at hx
  | cons r rest ih =>
    rcases List.mem_cons.mp hx with heq | hmem
    · subst heq
      simp [mongooseFindOneAndUpdate, hnm]
    · by_cases hm : q.matches r
      · simp [mongooseFindOneAndUpdate, hm]
        exact Or.inr hmem
      · simp [mongooseFindOneAndUpdate, hm]
        exact Or.inr (ih hmem)

theorem mongooseFindOneAndUpdate_snd_none_iff (store : List Rec) (q : Query) (u : UpdateOp) :
    (mongooseFindOneAndUpdate store q u).2 = none ↔ ∀ x ∈ store, q.matches x = false := by
  induction store with
  | nil => simp [mongooseFindOneAndUpdate]
  | cons r rest ih =>
    by_cases hm : q.matches r
    · simp [mongooseFindOneAndUpdate, hm]
    · simp [mongooseFindOneAndUpdate, hm, ih]

theorem slug_step1 (gen : String → String) (src : String) (hsrc : ¬ src = "") :
    Service.create (slugCtx gen) [] [("name", src)] 3 =
      some ([slugRec 1 src (gen src)], .ok (slugRec 1 src (gen src))) := by
  simp +decide [Service.create, slugCtx, validateUniqueFields, validateUniqueFieldsGo,
        validateDocument, runCustomValidatorsGo, generateUniqueSlug, slugLoop,
        repoCall, BaseRepository.existsQ, BaseRepository.create, mongooseExists,
        fieldEqQuery, Query.withDeletedNull, Query.matches, getField, setField,
        freshId, slugRec, hsrc, Bind.bind, Except.bind]

theorem slug_step2 (gen : String → String) (src : String) (hsrc : ¬ src = "") :
    Service.create (slugCtx gen) [slugRec 1 src (gen src)] [("name", src)] 3 =
      some ([slugRec 1 src (gen src), slugRec 2 src (gen src ++ "-1")],
            .ok (slugRec 2 src (gen src ++ "-1"))) := by
  have hb1 : (gen src == gen src ++ "-1") = false :=
    beq_eq_false_iff_ne.mpr (append_ne_of_suffix_nonempty _ _ (by decide))
  simp +decide [Service.create, slugCtx, validateUniqueFields, validateUniqueFieldsGo,
        validateDocument, runCustomValidatorsGo, generateUniqueSlug, slugLoop,
        repoCall, BaseRepository.existsQ, BaseRepository.create, mongooseExists,
        fieldEqQuery, Query.withDeletedNull, Query.matches, getField, setField,
        freshId, slugRec, hsrc, Bind.bind, Except.bind, resolver_one, resolver_two, hb1]

theorem slug_step3 (gen : String → String) (src : String) (hsrc : ¬ src = "") :
    Service.create (slugCtx gen) [slugRec 1 src (gen src), slugRec 2 src (gen src ++ "-1")]
        [("name", src)] 3 =
      some ([slugRec 1 src (gen src), slugRec 2 src (gen src ++ "-1"),
             slugRec 3 src (gen src ++ "-2")],
            .ok (slugRec 3 src (gen src ++ "-2"))) := by
  have hb1 : (gen src == gen src ++ "-1") = false :=
    beq_eq_false_iff_ne.mpr (append_ne_of_suffix_nonempty _ _ (by decide))
  have hb2 : (gen src == gen src ++ "-2") = false :=
    beq_eq_false_iff_ne.mpr (append_ne_of_suffix_nonempty _ _ (by decide))
  have hb3 : (gen src ++ "-1" == gen src ++ "-2") = false := by
    refine beq_eq_false_iff_ne.mpr ?_
    intro h
    have := append_right_inj _ _ _ h
    revert this; decide
  simp +decide [Service.create, slugCtx, validateUniqueFields, validateUniqueFieldsGo,
        validateDocument, runCustomValidatorsGo, generateUniqueSlug, slugLoop,
        repoCall, BaseRepository.existsQ, BaseRepository.create, mongooseExists,
        fieldEqQuery, Query.withDeletedNull, Query.matches, getField, setField,
        freshId, slugRec, hsrc, Bind.bind, Except.bind, resolver_one, resolver_two,
        hb1, hb2, hb3]

theorem serviceFindAll_cache_disabled (ctx : SvcCtx) (store : List Rec) (now : Millis)
    (cache : CacheState (SvcResponse (List Rec))) (args : FindAllArgs)
    (hcache : ctx.cache.enabled = false) :
    serviceFindAll ctx store now cache args = (findAllGetter ctx store args, cache, true) := by
  simp [serviceFindAll, getCachedData, hcache]

theorem findAllGetter_ok (ctx : SvcCtx) (store : List Rec) (args : FindAllArgs)
    (hfault : ctx.fault = none) :
    findAllGetter ctx store args =
      .ok (.ok (BaseRepository.findAll store (finalQueryOf ctx args)
                  (findAllOptions ctx args) args.includeDeleted)
        (some { total := BaseRepository.countDocuments store emptyQuery {} args.includeDeleted,
                results := BaseRepository.countDocuments store (finalQueryOf ctx args) {}
                  args.includeDeleted,
                pag :=
                  if args.paginate then
                    some { page := effectivePage ctx args,
                           limit := effectiveLimit ctx args,
                           totalPages := jsCeilDiv
                             (BaseRepository.countDocuments store (finalQueryOf ctx args) {}
                               args.includeDeleted)
                             (effectiveLimit ctx args),
                           remainingItems :=
                             if 0 < ((BaseRepository.countDocuments store (finalQueryOf ctx args)
                                   {} args.includeDeleted : Int)
                                 - effectivePage ctx args * effectiveLimit ctx args) then
                               ((BaseRepository.countDocuments store (finalQueryOf ctx args)
                                   {} args.includeDeleted : Int)
                                 - effectivePage ctx args * effectiveLimit ctx args)
                             else 0,
                           pageItemsCount :=
                             (BaseRepository.findAll store (finalQueryOf ctx args)
                               (findAllOptions ctx args) args.includeDeleted).length }
                  else none })) := by
  simp [findAllGetter, repoCall, hfault, Bind.bind, Except.bind]

theorem findAllGetter_isOk (ctx : SvcCtx) (store : List Rec) (args : FindAllArgs)
    (hfault : ctx.fault = none) :
    ∃ d, findAllGetter ctx store args = .ok d :=
  ⟨_, findAllGetter_ok ctx store args hfault⟩

theorem jsCeilDiv_natCast (n l : Nat) (hl : 1 ≤ l) :
    jsCeilDiv (n : Int) (l : Int) = .fin (((n + l - 1) / l : Nat) : Int) := by
  unfold jsCeilDiv
  rw [if_pos (by exact_mod_cast hl : (0 : Int) < l)]
  congr 1
  have h1 : ((n : Int) + l - 1) = ((n + l - 1 : Nat) : Int) := by omega
  rw [h1]
  exact (Int.ofNat_fdiv _ _).symm

theorem if_pos_eq_max (x : Int) : (if 0 < x then x else 0) = max 0 x := by
  rcases le_or_lt x 0 with h | h
  · rw [if_neg (not_lt.mpr h), max_eq_left h]
  · rw [if_pos h, max_eq_right h.le]

theorem ceil_mul_ge (n l : Nat) (hl : 1 ≤ l) : n ≤ ((n + l - 1) / l) * l := by
  have hdm := Nat.div_add_mod (n + l - 1) l
  have hml : (n + l - 1) % l < l := Nat.mod_lt _ (by omega)
  rw [Nat.mul_comm]
  omega

/-! ## Claim theorems -/

/-- Claim C1 (code-bug evidence): the claim says every public Service
operation returns a Response Envelope and never lets an exception propagate,
wrapping unexpected failures as a database-error envelope.  `Service.create`
does exactly that — but `Service.findAll` returns the `getCachedData`
promise without awaiting it inside its `try`, so a storage-layer rejection
bypasses the catch and propagates to the caller as a raw rejection:  with a
storage engine that rejects with a generic error `boom`, `findAll` yields
`Except.error` (an uncaught exception) while `create` on the same engine
yields the `DATABASE_ERROR` envelope the claim requires. -/
theorem findAll_rejection_escapes_catch :
    (serviceFindAll ctxBoom [] 0 [] {}).1 = .error (.err "boom") ∧
    Service.create ctxBoom [] [("name", "x")] 10 =
      some ([], .fail { code := "DATABASE_ERROR", message := "boom" }) := by
  constructor <;> rfl

/-- Claim C2 counterexample: `updateById` is called with its default
arguments on a store whose only record is soft-deleted, and the record is
matched and updated anyway — refuting the claim that every update operation
excludes soft-deleted records by default. -/
theorem updateById_affects_soft_deleted :
    BaseRepository.updateById [deletedRec] 1 (.setFields [("a", "y")]) =
      ([{ id := 1, fields := [("a", "y")], deletedAt := some 5, deletedBy := some "u" }],
       some { id := 1, fields := [("a", "y")], deletedAt := some 5, deletedBy := some "u" }) := by
  decide

/-- Claim C2 (amended): with default arguments, `findAll`, `findOne`,
`findById`, `update`, `updateMany`, `countDocuments` and `exists` exclude
soft-deleted records — reads only return live records, `update`/`updateMany`
only touch live records and pass soft-deleted records through unchanged,
`exists` only sees live matches, and `countDocuments` counts exactly the
live matches.  `updateById` and the delete family (`delete`, `deleteById`,
`deleteMany`) do NOT share this property (see the counterexample), so the
restore family is not the only one that can target soft-deleted records. -/
theorem default_visibility_excludes_soft_deleted (store : List Rec) (q : Query)
    (opts : FindOptions) (i : Nat) (u : UpdateOp) (r : Rec) :
    (r ∈ BaseRepository.findAll store q opts false → r.deletedAt = none) ∧
    (BaseRepository.findOne store q opts false = some r → r.deletedAt = none) ∧
    (BaseRepository.findById store i false = some r → r.deletedAt = none) ∧
    ((BaseRepository.update store q u false).2 = some r →
       ∃ x ∈ store, x.deletedAt = none ∧ q.pred x = true ∧ r = applyUpdate u x) ∧
    (∀ x ∈ store, x.deletedAt ≠ none → x ∈ (BaseRepository.update store q u false).1) ∧
    (∀ x ∈ store, x.deletedAt ≠ none → x ∈ (BaseRepository.updateMany store q u).1) ∧
    (BaseRepository.existsQ store q false = true →
       ∃ x ∈ store, x.deletedAt = none ∧ q.pred x = true) ∧
    (BaseRepository.countDocuments store q {} false =
       (store.filter (fun x => x.deletedAt.isNone && q.pred x)).length) := by
  refine ⟨?_, ?_, ?_, ?_, ?_, ?_, ?_, ?_⟩
  · intro h
    have h' : r ∈ mongooseFind store q.withDeletedNull opts := h
    have hm := (List.mem_filter.mp (mem_filter_of_mem_mongooseFind _ _ _ _ h')).2
    rw [matches_withDeletedNull] at hm
    exact Option.isNone_iff_eq_none.mp (Bool.and_elim_right hm)
  · intro h
    have h' : (store.filter (q.withDeletedNull).matches).head? = some r := h
    have hm := (List.mem_filter.mp (head?_mem_list _ _ h')).2
    rw [matches_withDeletedNull] at hm
    exact Option.isNone_iff_eq_none.mp (Bool.and_elim_right hm)
  · intro h
    have h' : (store.filter ((idQuery i).withDeletedNull).matches).head? = some r := h
    have hm := (List.mem_filter.mp (head?_mem_list _ _ h')).2
    rw [matches_withDeletedNull] at hm
    exact Option.isNone_iff_eq_none.mp (Bool.and_elim_right hm)
  · intro h
    have h' : (mongooseFindOneAndUpdate store q.withDeletedNull u).2 = some r := h
    obtain ⟨x, hx, hm, hr⟩ := mongooseFindOneAndUpdate_snd_some _ _ _ _ h'
    rw [matches_withDeletedNull] at hm
    exact ⟨x, hx, Option.isNone_iff_eq_none.mp (Bool.and_elim_right hm),
           Bool.and_elim_left hm, hr⟩
  · intro x hx hdel
    show x ∈ (mongooseFindOneAndUpdate store q.withDeletedNull u).1
    refine mongooseFindOneAndUpdate_preserves _ _ _ _ hx ?_
    rw [matches_withDeletedNull, isNone_false_of_ne_none _ hdel]
    exact Bool.and_false _
  · intro x hx hdel
    have hmf : (q.withDeletedNull).matches x = false := by
      rw [matches_withDeletedNull, isNone_false_of_ne_none _ hdel]
      exact Bool.and_false _
    show x ∈ store.map (fun y => if (q.withDeletedNull).matches y then applyUpdate u y else y)
    exact List.mem_map.mpr ⟨x, hx, by rw [hmf]; simp⟩
  · intro h
    have h' : store.any (q.withDeletedNull).matches = true := h
    obtain ⟨x, hx, hm⟩ := List.any_eq_true.mp h'
    rw [matches_withDeletedNull] at hm
    exact ⟨x, hx, Option.isNone_iff_eq_none.mp (Bool.and_elim_right hm),
           Bool.and_elim_left hm⟩
  · show (store.filter (q.withDeletedNull).matches).length = _
    congr 1
    refine List.filter_congr ?_
    intro x _
    rw [matches_withDeletedNull]
    exact Bool.and_comm _ _

/-- Witness for claim C2: a live record is returned by a default-visibility
`findAll` and is indeed live. -/
theorem default_visibility_excludes_soft_deleted_witness :
    plainRec 1 ∈ BaseRepository.findAll [plainRec 1] emptyQuery {} false ∧
    (plainRec 1).deletedAt = none :=
  ⟨by decide,
   (default_visibility_excludes_soft_deleted [plainRec 1] emptyQuery {} 1
     (.setFields []) (plainRec 1)).1 (by decide)⟩

/-- Claim C3 counterexample: with slug config enabled, a create whose input
does not contain the configured source field does NOT skip slug assignment
and continue — `generateUniqueSlug` throws, and the create fails with a
`DATABASE_ERROR` envelope carrying the thrown message. -/
theorem create_missing_slug_source_fails :
    Service.create ctxSlugId [] [("title", "x")] 10 =
      some ([],
        .fail { code := "DATABASE_ERROR",
                message := "Source field \x27name\x27 not found in document." }) := by
  decide

/-- Claim C3 (amended): with slug config enabled, when the input does not
contain the source field key, `generateUniqueSlug` throws a generic error
naming the missing field and the create returns a `DATABASE_ERROR` envelope
with the store unchanged; only when the source field is present with a
falsy (empty) value is slug assignment skipped and the create persisted
normally. -/
theorem create_slug_source_absent_vs_falsy (ctx : SvcCtx) (store : List Rec) (input : Doc)
    (fuel : Nat)
    (hen : ctx.slug.enabled = true)
    (hfault : ctx.fault = none)
    (hbc : ctx.hooks.beforeCreate = none)
    (hac : ctx.hooks.afterCreate = none)
    (hu : ctx.uniqueFields = [])
    (hpre : ctx.validation.preValidate = none)
    (hpost : ctx.validation.postValidate = none)
    (hcv : ctx.validation.customValidators = []) :
    (getField input ctx.slug.sourceField = none →
       Service.create ctx store input fuel =
         some (store,
           .fail { code := "DATABASE_ERROR",
                   message := slugSourceMessage ctx.slug.sourceField })) ∧
    (getField input ctx.slug.sourceField = some "" →
       Service.create ctx store input fuel =
         some ((BaseRepository.create store input).1, .ok (BaseRepository.create store input).2)) := by
  constructor <;> intro h <;>
    simp [Service.create, hbc, hac, hu, hpre, hpost, hcv, hen, hfault, h,
          validateUniqueFields, validateUniqueFieldsGo, validateDocument,
          runCustomValidatorsGo, generateUniqueSlug, repoCall, catchToError,
          BaseRepository.create, Bind.bind, Except.bind]

/-- Witness for claim C3: the slugged create of a document without the
source field fails with the database-error envelope. -/
theorem create_slug_source_absent_vs_falsy_witness :
    getField [("title", "x")] (ctxSlugId.slug.sourceField) = none ∧
    Service.create ctxSlugId [] [("title", "x")] 10 =
      some ([],
        .fail { code := "DATABASE_ERROR",
                message := slugSourceMessage ctxSlugId.slug.sourceField }) :=
  ⟨by decide,
   (create_slug_source_absent_vs_falsy ctxSlugId [] [("title", "x")] 10
     rfl rfl rfl rfl rfl rfl rfl rfl).1 (by decide)⟩

/-- Claim C4 (code-bug evidence): with slug config enabled and the update
input changing the source field (`name` from `alpha` to `beta`), the claim
says a new unique slug is generated and assigned before persisting.  The
code generates the slug on the discarded spread copy and persists the
original update input: the persisted record keeps the old slug `alpha`
alongside the new name `beta`.  On `updateById` there is no slug stage at
all and the result is identical. -/
theorem update_discards_generated_slug :
    Service.update ctxSlugId [slugRec 1 "alpha" "alpha"] (idQuery 1) [("name", "beta")] 10 =
      some ([{ id := 1, fields := [("name", "beta"), ("slug", "alpha")],
               deletedAt := none, deletedBy := none }],
            .ok { id := 1, fields := [("name", "beta"), ("slug", "alpha")],
                  deletedAt := none, deletedBy := none }) ∧
    Service.updateById ctxSlugId [slugRec 1 "alpha" "alpha"] 1 [("name", "beta")] =
      ([{ id := 1, fields := [("name", "beta"), ("slug", "alpha")],
          deletedAt := none, deletedBy := none }],
       .ok { id := 1, fields := [("name", "beta"), ("slug", "alpha")],
             deletedAt := none, deletedBy := none }) := by
  constructor <;> decide

/-- Claim C5: with slug config enabled and the default collision resolver,
three consecutive creates with the same (truthy) source value receive the
slugs `base`, `base-1`, `base-2` (where `base` is the generator output),
and the live records never share a slug: the three slug values are pairwise
distinct at every stage. -/
theorem slug_collision_sequence (gen : String → String) (src : String) (hsrc : src ≠ "") :
    Service.create (slugCtx gen) [] [("name", src)] 3 =
      some ([slugRec 1 src (gen src)], .ok (slugRec 1 src (gen src))) ∧
    Service.create (slugCtx gen) [slugRec 1 src (gen src)] [("name", src)] 3 =
      some ([slugRec 1 src (gen src), slugRec 2 src (gen src ++ "-1")],
            .ok (slugRec 2 src (gen src ++ "-1"))) ∧
    Service.create (slugCtx gen)
        [slugRec 1 src (gen src), slugRec 2 src (gen src ++ "-1")] [("name", src)] 3 =
      some ([slugRec 1 src (gen src), slugRec 2 src (gen src ++ "-1"),
             slugRec 3 src (gen src ++ "-2")],
            .ok (slugRec 3 src (gen src ++ "-2"))) ∧
    gen src ≠ gen src ++ "-1" ∧ gen src ≠ gen src ++ "-2" ∧
    gen src ++ "-1" ≠ gen src ++ "-2" := by
  refine ⟨slug_step1 gen src hsrc, slug_step2 gen src hsrc, slug_step3 gen src hsrc,
          append_ne_of_suffix_nonempty _ _ (by decide),
          append_ne_of_suffix_nonempty _ _ (by decide), ?_⟩
  intro h
  have := append_right_inj _ _ _ h
  revert this; decide

/-- Witness for claim C5: the second create with source `alpha` yields the
slug `alpha-1`. -/
theorem slug_collision_sequence_witness :
    ("alpha" : String) ≠ "" ∧
    Service.create (slugCtx (fun s => s)) [slugRec 1 "alpha" "alpha"] [("name", "alpha")] 3 =
      some ([slugRec 1 "alpha" "alpha", slugRec 2 "alpha" ("alpha" ++ "-1")],
            .ok (slugRec 2 "alpha" ("alpha" ++ "-1"))) :=
  ⟨by decide, (slug_collision_sequence (fun s => s) "alpha" (by decide)).2.1⟩

/-- Claim C6 counterexample: a unique field set to the empty string is
"set" by the input, and a live record with the same empty value exists —
yet no uniqueness failure occurs and the create succeeds, because
`validateUniqueFields` skips any falsy value (`!doc[field]`). -/
theorem create_empty_unique_value_skips_check :
    Service.create ctxUniq
        [{ id := 1, fields := [("email", "")], deletedAt := none, deletedBy := none }]
        [("email", "")] 10 =
      some ([{ id := 1, fields := [("email", "")], deletedAt := none, deletedBy := none },
             { id := 2, fields := [("email", "")], deletedAt := none, deletedBy := none }],
            .ok { id := 2, fields := [("email", "")], deletedAt := none, deletedBy := none }) := by
  decide

/-- Claim C6 (amended): for a schema-unique field set by the input to a
truthy (non-empty) value, an existence query (excluding the current id on
update) is run: a hit fails the operation with the `UNIQUE_FIELD_ERROR`
envelope naming the field and value, and no hit lets validation pass; when
every live holder of the value is the record being updated itself, the
self-excluding query finds nothing; and an input that does not set the
field skips the check entirely, so updating a different field never
collides with the record's own value.  Inputs setting the field to a falsy
value also skip the check (see the counterexample). -/
theorem unique_field_validation_behaviour (ctx : SvcCtx) (store : List Rec) (input : Doc)
    (fuel : Nat) (f v : String) (i : Nat)
    (huf : ctx.uniqueFields = [f])
    (hfault : ctx.fault = none)
    (hbc : ctx.hooks.beforeCreate = none)
    (hv : getField input f = some v) (hvne : v ≠ "") :
    (BaseRepository.existsQ store (fieldEqQuery f v none) = true →
       Service.create ctx store input fuel = some (store, .fail (uniqueFieldError f v))) ∧
    (BaseRepository.existsQ store (fieldEqQuery f v none) = false →
       validateUniqueFields ctx store input none = .ok ()) ∧
    ((∀ x ∈ store, x.deletedAt = none → getField x.fields f = some v → x.id = i) →
       validateUniqueFields ctx store input (some i) = .ok ()) ∧
    (∀ doc2 : Doc, getField doc2 f = none →
       validateUniqueFields ctx store doc2 (some i) = .ok ()) := by
  refine ⟨?_, ?_, ?_, ?_⟩
  · intro hex
    simp [Service.create, hbc, validateUniqueFields, validateUniqueFieldsGo, huf,
          fieldFalsy, hv, hvne, repoCall, hfault, hex, catchToError,
          Bind.bind, Except.bind]
  · intro hex
    simp [validateUniqueFields, validateUniqueFieldsGo, huf, fieldFalsy, hv, hvne,
          repoCall, hfault, hex, Bind.bind, Except.bind]
  · intro hall
    have hex : BaseRepository.existsQ store (fieldEqQuery f v (some i)) = false := by
      show store.any ((fieldEqQuery f v (some i)).withDeletedNull).matches = false
      rw [List.any_eq_false]
      intro x hx
      rw [matches_withDeletedNull]
      intro hcontra
      have hpredx := Bool.and_elim_left hcontra
      have hlive := Option.isNone_iff_eq_none.mp (Bool.and_elim_right hcontra)
      have hfv := Bool.and_elim_left hpredx
      have hni := Bool.and_elim_right hpredx
      have : x.id = i := hall x hx hlive (by simpa using hfv)
      simp [this] at hni
    simp [validateUniqueFields, validateUniqueFieldsGo, huf, fieldFalsy, hv, hvne,
          repoCall, hfault, hex, Bind.bind, Except.bind]
  · intro doc2 h2
    simp [validateUniqueFields, validateUniqueFieldsGo, huf, fieldFalsy, h2]

/-- Witness for claim C6: creating a second record with the same non-empty
unique `email` value fails with the `UNIQUE_FIELD_ERROR` envelope. -/
theorem unique_field_validation_behaviour_witness :
    BaseRepository.existsQ
        [{ id := 1, fields := [("email", "a")], deletedAt := none, deletedBy := none }]
        (fieldEqQuery "email" "a" none) = true ∧
    Service.create ctxUniq
        [{ id := 1, fields := [("email", "a")], deletedAt := none, deletedBy := none }]
        [("email", "a")] 10 =
      some ([{ id := 1, fields := [("email", "a")], deletedAt := none, deletedBy := none }],
            .fail (uniqueFieldError "email" "a")) :=
  ⟨by decide,
   (unique_field_validation_behaviour ctxUniq
     [{ id := 1, fields := [("email", "a")], deletedAt := none, deletedBy := none }]
     [("email", "a")] 10 "email" "a" 0 rfl rfl rfl (by decide) (by decide)).1 (by decide)⟩

/-- Claim C7: for a successful paginated `findAll` (cache disabled so the
value is freshly computed, storage healthy, effective limit at least 1),
the returned metadata satisfies: the effective page is at least 1, the
effective limit is `min(maxLimit, limit)`, `total` is the unfiltered count,
`results` the filtered count N, `totalPages = ceil(N / L)`,
`remainingItems = max(0, N - page*L)`, `pageItemsCount` is the number of
returned documents; requesting exactly page `ceil(N/L)` gives
`remainingItems = 0`, and any page beyond that returns zero documents and
`remainingItems = 0`, never a negative value. -/
theorem findAll_pagination_meta (ctx : SvcCtx) (store : List Rec) (args : FindAllArgs)
    (now : Millis) (cache : CacheState (SvcResponse (List Rec))) (N L : Nat)
    (hcache : ctx.cache.enabled = false) (hfault : ctx.fault = none)
    (hpag : args.paginate = true) (hLpos : 1 ≤ L)
    (hN : N = BaseRepository.countDocuments store (finalQueryOf ctx args) {}
        args.includeDeleted)
    (hL : (L : Int) = effectiveLimit ctx args) :
    ∃ docs pagm,
      (serviceFindAll ctx store now cache args).1 =
        .ok (.ok docs
          (some { total := BaseRepository.countDocuments store emptyQuery {}
                    args.includeDeleted,
                  results := N, pag := some pagm })) ∧
      pagm.page = effectivePage ctx args ∧
      1 ≤ pagm.page ∧
      pagm.limit = min ctx.pagination.maxLimit (args.limit.getD ctx.pagination.defaultLimit) ∧
      pagm.totalPages = JSNum.fin (((N + L - 1) / L : Nat) : Int) ∧
      pagm.remainingItems = max 0 ((N : Int) - pagm.page * (L : Int)) ∧
      pagm.pageItemsCount = docs.length ∧
      (pagm.page = (((N + L - 1) / L : Nat) : Int) → pagm.remainingItems = 0) ∧
      ((((N + L - 1) / L : Nat) : Int) < pagm.page → docs = [] ∧ pagm.remainingItems = 0) := by
  subst hN
  have hsvc : (serviceFindAll ctx store now cache args).1 = findAllGetter ctx store args := by
    rw [serviceFindAll_cache_disabled _ _ _ _ _ hcache]
  rw [hsvc, findAllGetter_ok _ _ _ hfault]
  rw [← hL]
  simp only [hpag, if_true]
  set R := BaseRepository.countDocuments store (finalQueryOf ctx args) {} args.includeDeleted
    with hR
  set p := effectivePage ctx args with hp
  have hp1 : 1 ≤ p := le_max_left _ _
  have hceil : R ≤ ((R + L - 1) / L) * L := ceil_mul_ge R L hLpos
  have hceilZ : ((R : Int)) ≤ (((R + L - 1) / L : Nat) : Int) * (L : Int) := by
    exact_mod_cast hceil
  refine ⟨_, _, rfl, rfl, hp1, ?_, jsCeilDiv_natCast R L hLpos,
          if_pos_eq_max _, rfl, ?_, ?_⟩
  · show (L : Int) = ctx.pagination.maxLimit ⊓ args.limit.getD ctx.pagination.defaultLimit
    rw [hL]
    rfl
  · intro hpage
    have hpage2 : p = (((R + L - 1) / L : Nat) : Int) := hpage
    show (if 0 < ((R : Int) - p * (L : Int)) then ((R : Int) - p * (L : Int)) else 0) = 0
    rw [hpage2]
    rw [if_neg (by omega)]
  · intro hbeyond
    have hbeyond2 : (((R + L - 1) / L : Nat) : Int) < p := hbeyond
    constructor
    · show BaseRepository.findAll store (finalQueryOf ctx args) (findAllOptions ctx args)
          args.includeDeleted = []
      have hopts : findAllOptions ctx args =
          { skip := some ((p - 1) * (L : Int)), limit := some (L : Int) } := by
        rw [findAllOptions, if_pos hpag, ← hL, ← hp]
      rw [hopts]
      unfold BaseRepository.findAll
      have hmul : (((R + L - 1) / L : Nat) : Int) * (L : Int) ≤ (p - 1) * (L : Int) := by
        refine mul_le_mul_of_nonneg_right (by omega) (by positivity)
      have hskip : ((R : Int)) ≤ (p - 1) * (L : Int) := le_trans hceilZ hmul
      have hskipNat : R ≤ ((p - 1) * (L : Int)).toNat := by omega
      show mongooseFind store _ { skip := some ((p - 1) * (L : Int)), limit := some (L : Int) } = []
      unfold mongooseFind
      have hlen : (store.filter
          (if args.includeDeleted then finalQueryOf ctx args
           else (finalQueryOf ctx args).withDeletedNull).matches).length = R := rfl
      simp only
      rw [List.drop_eq_nil_of_le (by rw [hlen]; exact hskipNat)]
      exact List.take_nil
    · show (if 0 < ((R : Int) - p * (L : Int)) then ((R : Int) - p * (L : Int)) else 0) = 0
      rw [if_neg]
      intro hlt
      have hmul : (((R + L - 1) / L : Nat) : Int) * (L : Int) ≤ (p - 1) * (L : Int) := by
        refine mul_le_mul_of_nonneg_right (by omega) (by positivity)
      have hskip : ((R : Int)) ≤ (p - 1) * (L : Int) := le_trans hceilZ hmul
      have hexp : (p - 1) * (L : Int) + (L : Int) = p * (L : Int) := by ring
      omega

/-- Witness for claim C7: three live records, `limit = 2`, `page = 2` —
the last page, with `remainingItems = 0`. -/
theorem findAll_pagination_meta_witness :
    (3 : Nat) = BaseRepository.countDocuments store3 (finalQueryOf ctxDefault argsPag) {}
        argsPag.includeDeleted ∧
    ∃ docs pagm,
      (serviceFindAll ctxDefault store3 0 [] argsPag).1 =
        .ok (.ok docs
          (some { total := BaseRepository.countDocuments store3 emptyQuery {}
                    argsPag.includeDeleted,
                  results := 3, pag := some pagm })) ∧
      pagm.page = effectivePage ctxDefault argsPag ∧
      1 ≤ pagm.page ∧
      pagm.limit = min ctxDefault.pagination.maxLimit
        (argsPag.limit.getD ctxDefault.pagination.defaultLimit) ∧
      pagm.totalPages = JSNum.fin (((3 + 2 - 1) / 2 : Nat) : Int) ∧
      pagm.remainingItems = max 0 (((3 : Nat) : Int) - pagm.page * ((2 : Nat) : Int)) ∧
      pagm.pageItemsCount = docs.length ∧
      (pagm.page = (((3 + 2 - 1) / 2 : Nat) : Int) → pagm.remainingItems = 0) ∧
      ((((3 + 2 - 1) / 2 : Nat) : Int) < pagm.page → docs = [] ∧ pagm.remainingItems = 0) :=
  ⟨by decide,
   findAll_pagination_meta ctxDefault store3 argsPag 0 [] 3 2 rfl rfl rfl
     (by decide) (by decide) (by decide)⟩

/-- Claim C8: with caching enabled and ttl T, starting from an empty cache,
the first `findAll` runs the persistence computation and stores the value
keyed by method name plus serialized arguments with its timestamp; an
identical call less than T seconds later returns the cached value without
touching persistence and leaves the cache unchanged; once `now - timestamp
≥ T` seconds the entry is expired, so an identical call runs persistence
again and refreshes the entry timestamp. -/
theorem findAll_cache_ttl (ctx : SvcCtx) (store : List Rec) (args : FindAllArgs)
    (t1 t2 t3 : Millis)
    (hen : ctx.cache.enabled = true) (hfault : ctx.fault = none)
    (hfresh : t2 - t1 < ctx.cache.ttl * 1000)
    (hexp : ctx.cache.ttl * 1000 ≤ t3 - t1) :
    ∃ d,
      findAllGetter ctx store args = .ok d ∧
      serviceFindAll ctx store t1 [] args =
        (.ok d, [(findAllCacheKey args, ⟨d, t1⟩)], true) ∧
      serviceFindAll ctx store t2 [(findAllCacheKey args, ⟨d, t1⟩)] args =
        (.ok d, [(findAllCacheKey args, ⟨d, t1⟩)], false) ∧
      serviceFindAll ctx store t3 [(findAllCacheKey args, ⟨d, t1⟩)] args =
        (.ok d, [(findAllCacheKey args, ⟨d, t3⟩)], true) := by
  obtain ⟨d, hd⟩ := findAllGetter_isOk ctx store args hfault
  have hnotfresh : ¬ (t3 - t1 < ctx.cache.ttl * 1000) := not_lt.mpr hexp
  refine ⟨d, hd, ?_, ?_, ?_⟩
  · simp [serviceFindAll, getCachedData, hen, cacheLookup, cacheSet, hd]
  · simp [serviceFindAll, getCachedData, hen, cacheLookup, cacheSet, hd, hfresh]
  · simp [serviceFindAll, getCachedData, hen, cacheLookup, cacheSet, hd, hnotfresh]

/-- Witness for claim C8: ttl 300 s; calls at 0 ms, 1000 ms (cache hit) and
300000 ms (expired, recomputed). -/
theorem findAll_cache_ttl_witness :
    (1000 : Millis) - 0 < ctxCache.cache.ttl * 1000 ∧
    ∃ d,
      findAllGetter ctxCache store3 {} = .ok d ∧
      serviceFindAll ctxCache store3 0 [] {} =
        (.ok d, [(findAllCacheKey {}, ⟨d, 0⟩)], true) ∧
      serviceFindAll ctxCache store3 1000 [(findAllCacheKey {}, ⟨d, 0⟩)] {} =
        (.ok d, [(findAllCacheKey {}, ⟨d, 0⟩)], false) ∧
      serviceFindAll ctxCache store3 300000 [(findAllCacheKey {}, ⟨d, 0⟩)] {} =
        (.ok d, [(findAllCacheKey {}, ⟨d, 300000⟩)], true) :=
  ⟨by decide,
   findAll_cache_ttl ctxCache store3 {} 0 1000 300000 rfl rfl (by decide) (by decide)⟩

/-- Claim C9 counterexample: `restoreMany` on a soft-deleted record with a
recorded `deletedBy` clears only `deletedAt`; `deletedBy` survives —
refuting the claim that every restore operation clears both markers. -/
theorem restoreMany_leaves_deletedBy :
    BaseRepository.restoreMany [deletedRec] emptyQuery =
      ([{ id := 1, fields := [], deletedAt := none, deletedBy := some "u" }], 1) := by
  decide

/-- Claim C9 (amended): `restore` and `restoreById` clear both `deletedAt`
and `deletedBy` on the single record they return; `restore` returns null
when no soft-deleted record matches the query; `restoreById` however
matches ANY record with the id — deleted or live — and returns null exactly
when no record with that id exists at all; and `restoreMany` clears only
`deletedAt` of the matched soft-deleted records, leaving `deletedBy`
untouched (visible in the map below, which preserves the `deletedBy`
field). -/
theorem restore_family_behaviour (store : List Rec) (q : Query) (i : Nat) (r : Rec) :
    ((BaseRepository.restore store q).2 = some r →
       r.deletedAt = none ∧ r.deletedBy = none) ∧
    ((∀ x ∈ store, q.pred x = true → x.deletedAt = none) →
       BaseRepository.restore store q = (store, none)) ∧
    ((BaseRepository.restoreById store i).2 = some r →
       r.deletedAt = none ∧ r.deletedBy = none) ∧
    ((BaseRepository.restoreById store i).2 = none ↔ ∀ x ∈ store, x.id ≠ i) ∧
    ((BaseRepository.restoreMany store q).1 =
       store.map (fun x =>
         if q.pred x && x.deletedAt.isSome then { x with deletedAt := none } else x)) := by
  refine ⟨?_, ?_, ?_, ?_, ?_⟩
  · intro h
    unfold BaseRepository.restore at h
    cases hf : BaseRepository.findOne store q.withDeletedNotNull {} true with
    | none => rw [hf] at h; simp at h
    | some d =>
      rw [hf] at h
      have h' : (mongooseFindOneAndUpdate store (idQuery d.id) (.unsetDeleted true)).2 = some r := h
      obtain ⟨x, _, _, hr⟩ := mongooseFindOneAndUpdate_snd_some _ _ _ _ h'
      subst hr
      exact ⟨rfl, rfl⟩
  · intro hall
    unfold BaseRepository.restore
    have hnil : store.filter (q.withDeletedNotNull).matches = [] := by
      refine List.filter_eq_nil_iff.mpr ?_
      intro x hx
      rw [matches_withDeletedNotNull]
      rcases hp : q.pred x with _ | _
      · simp
      · have := hall x hx hp
        simp [this]
    have hf : BaseRepository.findOne store q.withDeletedNotNull {} true = none := by
      show (store.filter (q.withDeletedNotNull).matches).head? = none
      rw [hnil]; rfl
    rw [hf]
  · intro h
    unfold BaseRepository.restoreById at h
    cases hf : BaseRepository.findById store i true with
    | none => rw [hf] at h; simp at h
    | some d =>
      rw [hf] at h
      have h' : (mongooseFindOneAndUpdate store (idQuery i) (.unsetDeleted true)).2 = some r := h
      obtain ⟨x, _, _, hr⟩ := mongooseFindOneAndUpdate_snd_some _ _ _ _ h'
      subst hr
      exact ⟨rfl, rfl⟩
  · unfold BaseRepository.restoreById
    cases hf : BaseRepository.findById store i true with
    | none =>
      simp only
      constructor
      · intro _ x hx
        have h' : (store.filter ((idQuery i)).matches).head? = none := hf
        have hnil := List.head?_eq_none_iff.mp h'
        intro hid
        have hm : ((idQuery i)).matches x = true := by
          simp [Query.matches, idQuery, hid]
        exact List.filter_eq_nil_iff.mp hnil x hx hm
      · intro _; trivial
    | some d =>
      simp only
      have hd : d ∈ store ∧ ((idQuery i)).matches d = true := by
        have h' : (store.filter ((idQuery i)).matches).head? = some d := hf
        exact List.mem_filter.mp (head?_mem_list _ _ h')
      have hdid : d.id = i := by
        have := hd.2
        simp [Query.matches, idQuery] at this
        exact this
      constructor
      · intro hnone
        have h' : (mongooseFindOneAndUpdate store (idQuery i) (.unsetDeleted true)).2 = none := hnone
        have := (mongooseFindOneAndUpdate_snd_none_iff _ _ _).mp h' d hd.1
        simp [Query.matches, idQuery, hdid] at this
      · intro hall
        exact absurd hdid (hall d hd.1)
  · show (mongooseUpdateMany store q.withDeletedNotNull (.unsetDeleted false)).1 = _
    show store.map _ = _
    refine List.map_congr_left ?_
    intro x _
    rw [matches_withDeletedNotNull]
    rcases hc : (q.pred x && x.deletedAt.isSome) with _ | _
    · simp
    · simp [applyUpdate]

/-- Witness for claim C9: restoring the soft-deleted record clears both
markers on the returned document. -/
theorem restore_family_behaviour_witness :
    (BaseRepository.restore [deletedRec] emptyQuery).2 =
      some { id := 1, fields := [], deletedAt := none, deletedBy := none } ∧
    ({ id := 1, fields := [], deletedAt := none, deletedBy := none } : Rec).deletedAt = none ∧
    ({ id := 1, fields := [], deletedAt := none, deletedBy := none } : Rec).deletedBy = none :=
  ⟨by decide,
   (restore_family_behaviour [deletedRec] emptyQuery 1
     { id := 1, fields := [], deletedAt := none, deletedBy := none }).1 (by decide)⟩

/-- Claim C10: the `findAll` limit is clamped only from above —
`finalLimit = min(maxLimit, limit)` with no lower bound of 1 — so a call
with `limit ≤ 0` issues the query with that non-positive limit and
`skip = (page-1)*limit`, and `totalPages` is computed as
`Math.ceil(results / limit)` with a zero or negative divisor. -/
theorem findAll_limit_no_lower_clamp (ctx : SvcCtx) (store : List Rec) (args : FindAllArgs)
    (now : Millis) (cache : CacheState (SvcResponse (List Rec))) (L : Int)
    (hLa : args.limit = some L) (hL0 : L ≤ 0) (hmax : L ≤ ctx.pagination.maxLimit)
    (hpag : args.paginate = true)
    (hcache : ctx.cache.enabled = false) (hfault : ctx.fault = none) :
    effectiveLimit ctx args = L ∧
    findAllOptions ctx args =
      { skip := some ((effectivePage ctx args - 1) * L), limit := some L } ∧
    1 ≤ effectivePage ctx args ∧
    ∃ docs pagm,
      (serviceFindAll ctx store now cache args).1 =
        .ok (.ok docs
          (some { total := BaseRepository.countDocuments store emptyQuery {}
                    args.includeDeleted,
                  results := BaseRepository.countDocuments store (finalQueryOf ctx args) {}
                    args.includeDeleted,
                  pag := some pagm })) ∧
      pagm.limit = L ∧ pagm.limit ≤ 0 ∧
      pagm.totalPages =
        jsCeilDiv (BaseRepository.countDocuments store (finalQueryOf ctx args) {}
          args.includeDeleted) L := by
  have heff : effectiveLimit ctx args = L := by
    rw [effectiveLimit, hLa]
    exact min_eq_right hmax
  refine ⟨heff, ?_, le_max_left _ _, ?_⟩
  · rw [findAllOptions, if_pos hpag, heff]
  · have hsvc : (serviceFindAll ctx store now cache args).1 = findAllGetter ctx store args := by
      rw [serviceFindAll_cache_disabled _ _ _ _ _ hcache]
    rw [hsvc, findAllGetter_ok _ _ _ hfault]
    rw [heff]
    simp only [hpag, if_true]
    exact ⟨_, _, rfl, rfl, hL0, rfl⟩

/-- Witness for claim C10: `limit = -5`, `page = 2` — the options carry the
negative limit and skip, and `totalPages` divides by `-5`. -/
theorem findAll_limit_no_lower_clamp_witness :
    argsNeg.limit = some (-5) ∧
    (effectiveLimit ctxDefault argsNeg = -5 ∧
     findAllOptions ctxDefault argsNeg =
       { skip := some ((effectivePage ctxDefault argsNeg - 1) * -5), limit := some (-5) } ∧
     1 ≤ effectivePage ctxDefault argsNeg ∧
     ∃ docs pagm,
       (serviceFindAll ctxDefault store3 0 [] argsNeg).1 =
         .ok (.ok docs
           (some { total := BaseRepository.countDocuments store3 emptyQuery {}
                     argsNeg.includeDeleted,
                   results := BaseRepository.countDocuments store3 (finalQueryOf ctxDefault argsNeg)
                     {} argsNeg.includeDeleted,
                   pag := some pagm })) ∧
       pagm.limit = -5 ∧ pagm.limit ≤ 0 ∧
       pagm.totalPages =
         jsCeilDiv (BaseRepository.countDocuments store3 (finalQueryOf ctxDefault argsNeg) {}
           argsNeg.includeDeleted) (-5)) :=
  ⟨rfl,
   findAll_limit_no_lower_clamp ctxDefault store3 argsNeg 0 [] (-5)
     rfl (by decide) (by decide) rfl rfl rfl⟩
